import Mathlib

/-!
Shallow embedding of `src/providers/comments/thread.ts` from the
VSCode-Gerrit extension, together with theorems settling the claims about
its thread-table adapter and its `.gitreview` config reader.

JavaScript strings are modelled as `List Char`; `String.prototype.split`,
`trim` and `includes` are re-implemented below with the exact JS
semantics the source relies on.  JS objects built by property assignment
are modelled as assignment lists read back with last-write-wins lookup.
-/

set_option autoImplicit false

namespace VSCodeGerrit

/-- JavaScript string contents, modelled as the list of characters. -/
abbrev JSStr := List Char

/-- JS `str.split(sep)` for a single-character separator: splitting the
empty string gives `[""]`, a trailing separator yields a trailing empty
segment. -/
def jsSplit (sep : Char) : JSStr → List JSStr
  | [] => [[]]
  | c :: rest =>
    if c = sep then [] :: jsSplit sep rest
    else
      match jsSplit sep rest with
      | [] => [[c]]
      | h :: t => (c :: h) :: t

/-- JS `str.trim()`: drop whitespace from both ends. -/
def jsTrim (s : JSStr) : JSStr :=
  ((s.dropWhile Char.isWhitespace).reverse.dropWhile Char.isWhitespace).reverse

/-- Whether `s` starts with `pat` (helper for `jsIncludes`). -/
def startsWithB : JSStr → JSStr → Bool
  | [], _ => true
  | _ :: _, [] => false
  | a :: as, b :: bs => a == b && startsWithB as bs

/-- JS `str.includes(sub)`: `sub` occurs contiguously somewhere in `s`. -/
def jsIncludes (s sub : JSStr) : Bool :=
  match s with
  | [] => sub.isEmpty
  | _ :: rest => startsWithB sub s || jsIncludes rest sub

/-! ## `.gitreview` parsing (`parseGerritFile`) -/

/-- One iteration of the loop body of `parseGerritFile`: lines without
`=` are skipped (`continue`); otherwise
`const [key, value] = line.split('=')` takes the first two split
segments and the stored pair is `(key, value.trim())`. -/
def parseLine (line : JSStr) : Option (JSStr × JSStr) :=
  if line.contains '=' then
    let parts := jsSplit '=' line
    some (parts.headD [], jsTrim (parts.getD 1 []))
  else
    none

/-- The assignments `file[typedKey] = value.trim()` performed by the
loop of `parseGerritFile`, in source order. -/
def parseAssignments (content : JSStr) : List (JSStr × JSStr) :=
  (jsSplit '\n' content).filterMap parseLine

/-- Reading property `k` of a JS object built by the assignments in
`file`: the last assignment to `k` wins; `none` when never assigned. -/
def jsObjGet (file : List (JSStr × JSStr)) (k : JSStr) : Option JSStr :=
  (file.reverse.find? fun p => p.1 == k).map Prod.snd

/-- JS truthiness of `file.host` / `file.project`: an absent property
(`undefined`) and the empty string are falsy. -/
def truthy : Option JSStr → Bool
  | none => false
  | some v => !v.isEmpty

/-- The literal section marker `'[gerrit]'`. -/
def gerritHeader : JSStr := "[gerrit]".data

/-- The required key `'host'`. -/
def hostKey : JSStr := "host".data

/-- The required key `'project'`. -/
def projectKey : JSStr := "project".data

/-- `parseGerritFile`: returns the parsed assignment object (or `none`)
together with a flag recording whether the warning `log(...)` call ran. -/
def parseGerritFile (fileContent : JSStr) :
    Option (List (JSStr × JSStr)) × Bool :=
  if !jsIncludes fileContent gerritHeader then
    (none, false)
  else
    let file := parseAssignments fileContent
    if !truthy (jsObjGet file hostKey) || !truthy (jsObjGet file projectKey) then
      (none, true)
    else
      (some file, false)

/-! ## `getGitReviewFile` and its cache

The filesystem is modelled by the list of per-workspace-root read
results, in workspace order: `none` is a failed `readFile` (the `catch`
branch), `some c` a successful read of content `c`. -/

/-- `getGitReviewFile`: walk the roots in order; a failed read
(`!fileContent`, which also covers empty content) means `continue`; the
first successful parse is returned; `null` once the roots are
exhausted. -/
def getGitReviewFile : List (Option JSStr) → Option (List (JSStr × JSStr))
  | [] => none
  | readResult :: rest =>
    match readResult with
    | none => getGitReviewFile rest
    | some fileContent =>
      if fileContent.isEmpty then
        getGitReviewFile rest
      else
        match (parseGerritFile fileContent).1 with
        | some parsed => some parsed
        | none => getGitReviewFile rest

/-- `getGitReviewFileCached`: the module-scoped `gitReviewFile` variable
is threaded explicitly; the result is `(returned value, new cache)`. -/
def getGitReviewFileCached (cache : Option (List (JSStr × JSStr)))
    (roots : List (Option JSStr)) :
    Option (List (JSStr × JSStr)) × Option (List (JSStr × JSStr)) :=
  match cache with
  | some f => (some f, some f)
  | none =>
    let r := getGitReviewFile roots
    (r, r)

/-- The per-line split rule exactly as the claim states it: split at the
first `=`; the key is the text before it, trimmed; the value is the
entire remainder of the line after it, trimmed.  (For comparison with
`parseLine`, which is translated from the source.) -/
def parseLineClaim (line : JSStr) : Option (JSStr × JSStr) :=
  if line.contains '=' then
    some (jsTrim (line.takeWhile (· != '=')),
          jsTrim ((line.dropWhile (· != '=')).drop 1))
  else
    none

/-! ## The `GerritCommentThread` adapter

External collaborators (the VSCode comment-thread handle, the
`FileProvider` file-meta lookup, the `CommentManager` registry and each
manager's `getLineThreadCount`) are opaque interfaces; they are modelled
as plain data and as an environment of functions.  The VSCode handle's
`dispose()` is modelled by a disposal counter on the handle. -/

/-- VSCode `CommentThreadCollapsibleState`. -/
inductive CollapsibleState where
  | collapsed
  | expanded
deriving DecidableEq, Repr

/-- The domain comment record (`GerritCommentBase`), consumed
opaquely: id, draft flag, unresolved flag, and the start line of the
range `DocumentCommentManager.getCommentRange` reports for it (`none`
when there is no range). -/
structure Comment where
  id : String
  isDraft : Bool
  unresolved : Bool
  line : Option Nat
deriving DecidableEq, Repr

/-- The VSCode `CommentThread` handle: the mutable fields the source
touches, plus `disposeCount` counting calls of its `dispose()`. -/
structure VSThread where
  uri : String
  contextValue : Option String
  comments : List Comment
  label : Option String
  canReply : Bool
  collapsibleState : CollapsibleState
  disposeCount : Nat
deriving DecidableEq, Repr

/-- A `GerritCommentThread` instance: its `_threadID`, its `_thread`
handle and its `_filePath`. -/
structure GThread where
  threadID : String
  thread : VSThread
  filePath : Option String
deriving DecidableEq, Repr

/-- The opaque environment: `FileProvider.tryGetFileMeta` (URI to file
path) and `CommentManager.getFileManagersForUri` (URI to the list of
managers, each represented by its `getLineThreadCount` function). -/
structure Env where
  fileMeta : String → Option String
  managersForUri : String → List (Nat → Nat)

/-- The static state of the class: `_lastThreadId` and `_threadMap`
(a JS `Map` in insertion order). -/
structure ThreadsState where
  lastThreadId : Nat
  threadMap : List (String × GThread)
deriving DecidableEq, Repr

/-- The initial static state: `_lastThreadId = 0`, empty `_threadMap`. -/
def initialState : ThreadsState := { lastThreadId := 0, threadMap := [] }

/-- JS `Map.get`. -/
def mapGet (m : List (String × GThread)) (k : String) : Option GThread :=
  (m.find? fun p => p.1 == k).map Prod.snd

/-- JS `Map.set`: update in place when the key exists, append
otherwise. -/
def mapSet (m : List (String × GThread)) (k : String) (v : GThread) :
    List (String × GThread) :=
  if (m.find? fun p => p.1 == k).isSome then
    m.map fun p => if p.1 == k then (k, v) else p
  else
    m ++ [(k, v)]

/-- JS `Map.delete`. -/
def mapDelete (m : List (String × GThread)) (k : String) :
    List (String × GThread) :=
  m.filter fun p => p.1 != k

/-- `GerritCommentThread._getThreadID`: `null` for a falsy
`contextValue`, else the segment of `contextValue` before the first
`|`. -/
def getThreadID (t : VSThread) : Option String :=
  match t.contextValue with
  | none => none
  | some cv =>
    if cv.isEmpty then none
    else some (String.mk ((jsSplit '|' cv.data).headD []))

/-- The constructor `new GerritCommentThread(thread)` together with
`_setThreadID` / `_generateID`: take a fresh id from `_lastThreadId`,
write `` `${id}|` `` into the handle's `contextValue`, store the new
instance in `_threadMap` under `String(id)`, and look up `_filePath`
via `FileProvider.tryGetFileMeta`.  Returns the new instance, the new
static state and the mutated handle. -/
def newThreadRecord (env : Env) (st : ThreadsState) (t : VSThread) :
    GThread × ThreadsState × VSThread :=
  let id := st.lastThreadId
  let t2 := { t with contextValue := some (toString id ++ "|") }
  let g : GThread :=
    { threadID := toString id
      thread := t2
      filePath := env.fileMeta t.uri }
  (g,
   { lastThreadId := id + 1
     threadMap := mapSet st.threadMap (toString id) g },
   t2)

/-- `GerritCommentThread.from`: return the mapped instance when the
handle carries a non-empty id that is in `_threadMap`; otherwise
construct a new instance and return `null` when no manager claims the
URI (`registerNewThread` is external and has no modelled effect).
Returns `(result, new static state, the handle as left behind)`. -/
def fromThread (env : Env) (st : ThreadsState) (t : VSThread) :
    Option GThread × ThreadsState × VSThread :=
  let existing :=
    match getThreadID t with
    | none => none
    | some id => if id.isEmpty then none else mapGet st.threadMap id
  match existing with
  | some g => (some g, st, t)
  | none =>
    let (g, st2, t2) := newThreadRecord env st t
    if (env.managersForUri t.uri).isEmpty then
      (none, st2, t2)
    else
      (some g, st2, t2)

/-- The `lastComment` getter:
`this._thread.comments[this._thread.comments.length - 1]`. -/
def lastComment (t : VSThread) : Option Comment :=
  t.comments.getLast?

/-- The `resolved` getter: `!(this.lastComment?.unresolved ?? false)`. -/
def resolved (t : VSThread) : Bool :=
  !(match lastComment t with
    | some c => c.unresolved
    | none => false)

/-- `_updateContextValues` (via `_setContextValue`): rewrite the
handle's `contextValue` to `` `${threadID}|${flags}` ``. -/
def updateContextValues (g : GThread) : GThread :=
  let v1 := if resolved g.thread then "yesResolved" else "noResolved"
  let v2 :=
    match lastComment g.thread with
    | none => "yesLastCommentDraft"
    | some c => if c.isDraft then "yesLastCommentDraft" else "nodLastCommentDaft"
  { g with thread := { g.thread with
      contextValue := some (g.threadID ++ "|" ++ (v1 ++ ("," ++ v2))) } }

/-- The immediately-invoked `overrideExpand` closure inside
`update(isInitial)`: `false` when `_filePath`, the last comment or its
range is missing, else `true` exactly when the `getLineThreadCount`
values over all managers for the URI sum to more than 1. -/
def overrideExpand (env : Env) (g : GThread) : Bool :=
  match g.filePath with
  | none => false
  | some _ =>
    match lastComment g.thread with
    | none => false
    | some c =>
      match c.line with
      | none => false
      | some ln =>
        let threadCount :=
          ((env.managersForUri g.thread.uri).map fun m => m ln).sum
        if threadCount > 1 then true else false

/-- `GerritCommentThread.update(isInitial)`: refresh context values,
label and `canReply`; on `isInitial`, evaluate `overrideExpand` and set
the collapse state: collapsed exactly when not force-expanded and
resolved. -/
def update (env : Env) (g0 : GThread) (isInitial : Bool) : GThread :=
  let g := updateContextValues g0
  let label := if resolved g.thread then "Comment" else "Comment (unresolved)"
  let canReply :=
    match lastComment g.thread with
    | none => true
    | some c => !c.isDraft
  let g := { g with thread :=
    { g.thread with label := some label, canReply := canReply } }
  if isInitial then
    let newState :=
      if !overrideExpand env g && resolved g.thread then
        CollapsibleState.collapsed
      else
        CollapsibleState.expanded
    { g with thread := { g.thread with collapsibleState := newState } }
  else
    g

/-- `GerritCommentThread.setComments(comments, isInitial)` for the
record stored under `tid`: assign the handle's comment list, run
`update`, and when the list ended up empty call `this._thread.dispose()`
on the handle — the handle's disposal counter is bumped while the
`_threadMap` entry stays (`registerComments` is external and has no
modelled effect).  Writing the changed record back into the map models
that the map entry and the instance are the same JS object. -/
def setComments (env : Env) (st : ThreadsState) (tid : String)
    (comments : List Comment) (isInitial : Bool) : ThreadsState :=
  match mapGet st.threadMap tid with
  | none => st
  | some g =>
    let g1 := { g with thread := { g.thread with comments := comments } }
    let g2 := update env g1 isInitial
    let stMid := { st with threadMap := mapSet st.threadMap tid g2 }
    if g2.thread.comments.isEmpty then
      let g3 := { g2 with thread :=
        { g2.thread with disposeCount := g2.thread.disposeCount + 1 } }
      { stMid with threadMap := mapSet stMid.threadMap tid g3 }
    else
      stMid

/-- `GerritCommentThread.dispose()`: delete this record's `_threadMap`
entry and dispose the underlying handle (returned with its disposal
counter bumped). -/
def disposeThread (st : ThreadsState) (g : GThread) :
    ThreadsState × VSThread :=
  ({ st with threadMap := mapDelete st.threadMap g.threadID },
   { g.thread with disposeCount := g.thread.disposeCount + 1 })

/-! ## Concrete fixtures used by witnesses and counterexamples -/

/-- Environment where every URI has file meta and one manager reporting
one thread per line. -/
def envOne : Env :=
  { fileMeta := fun _ => some "file.ts"
    managersForUri := fun _ => [fun _ => 1] }

/-- Environment where no manager claims any URI. -/
def envNone : Env :=
  { fileMeta := fun _ => none
    managersForUri := fun _ => [] }

/-- Environment whose single manager reports two threads on every
line. -/
def envTwo : Env :=
  { fileMeta := fun _ => some "file.ts"
    managersForUri := fun _ => [fun _ => 2] }

/-- A resolved, non-draft comment whose range starts at line 3. -/
def sampleComment : Comment :=
  { id := "c1", isDraft := false, unresolved := false, line := some 3 }

/-- An unresolved draft comment at line 3. -/
def sampleDraft : Comment :=
  { id := "c2", isDraft := true, unresolved := true, line := some 3 }

/-- A VSCode handle that has not been seen before (no
`contextValue`). -/
def freshHandle : VSThread :=
  { uri := "file:///u"
    contextValue := none
    comments := [sampleComment]
    label := none
    canReply := true
    collapsibleState := CollapsibleState.collapsed
    disposeCount := 0 }

/-- A record as it would be stored in the map under id `"0"`. -/
def sampleRecord : GThread :=
  { threadID := "0"
    thread := { freshHandle with contextValue := some "0|" }
    filePath := some "file.ts" }

/-! ## Helper lemmas -/

theorem updateContextValues_comments (g : GThread) :
    (updateContextValues g).thread.comments = g.thread.comments := rfl

theorem updateContextValues_filePath (g : GThread) :
    (updateContextValues g).filePath = g.filePath := rfl

theorem updateContextValues_uri (g : GThread) :
    (updateContextValues g).thread.uri = g.thread.uri := rfl

theorem lastComment_updateContextValues (g : GThread) :
    lastComment (updateContextValues g).thread = lastComment g.thread := rfl

theorem resolved_updateContextValues (g : GThread) :
    resolved (updateContextValues g).thread = resolved g.thread := rfl

theorem update_thread_comments (env : Env) (g : GThread) (b : Bool) :
    (update env g b).thread.comments = g.thread.comments := by
  unfold update
  cases b <;> simp [updateContextValues_comments]

theorem update_thread_disposeCount (env : Env) (g : GThread) (b : Bool) :
    (update env g b).thread.disposeCount = g.thread.disposeCount := by
  unfold update
  cases b <;> simp [show ∀ g' : GThread,
    (updateContextValues g').thread.disposeCount = g'.thread.disposeCount
    from fun _ => rfl]

/-! ## Claim theorems -/

/-- C10: a thread with an empty comment list has no last comment, so
the absent `unresolved` flag defaults to `false` and the `resolved`
getter reports `true`. -/
theorem c10_empty_is_resolved (t : VSThread) (h : t.comments = []) :
    resolved t = true := by
  unfold resolved lastComment
  rw [h]
  rfl

/-- Witness for C10 at a concrete empty-comment handle. -/
theorem c10_empty_is_resolved_witness :
    resolved { freshHandle with comments := [] } = true :=
  c10_empty_is_resolved { freshHandle with comments := [] } rfl

/-- C9: after any `update`, the label is `"Comment (unresolved)"`
exactly when the thread is unresolved and `"Comment"` otherwise, and
reply is disabled (`canReply = false`) exactly when a last comment
exists and is a draft. -/
theorem c9_label_and_reply (env : Env) (g : GThread) (b : Bool) :
    (update env g b).thread.label =
      some (if resolved g.thread then "Comment" else "Comment (unresolved)") ∧
    ((update env g b).thread.canReply = false ↔
      (lastComment g.thread).any Comment.isDraft = true) := by
  unfold update
  cases b <;>
    simp [resolved_updateContextValues, lastComment_updateContextValues] <;>
    cases h : lastComment g.thread <;>
    simp [h, Option.any]

/-- C4: once the cached reader has produced a successful parse, every
later call returns the identical result and cache, whatever the
filesystem now contains (so the filesystem is not re-read and the cache
is not invalidated). -/
theorem c4_cache_stable (fs1 : List (Option JSStr))
    (f : List (JSStr × JSStr)) (c1 : Option (List (JSStr × JSStr)))
    (h : getGitReviewFileCached none fs1 = (some f, c1)) :
    ∀ fs2 : List (Option JSStr),
      getGitReviewFileCached c1 fs2 = (some f, c1) := by
  intro fs2
  unfold getGitReviewFileCached at h ⊢
  have h1 : getGitReviewFile fs1 = some f := congrArg Prod.fst h
  have h2 : c1 = getGitReviewFile fs1 := (congrArg Prod.snd h).symm
  rw [h2, h1]

/-- Witness for C4: a first successful parse followed by a second call
on a changed filesystem returns the identical first result. -/
theorem c4_cache_stable_witness :
    getGitReviewFileCached none [some "[gerrit]\nhost=h\nproject=p".data] =
      (some [(hostKey, "h".data), (projectKey, "p".data)],
       some [(hostKey, "h".data), (projectKey, "p".data)]) ∧
    getGitReviewFileCached
        (some [(hostKey, "h".data), (projectKey, "p".data)])
        [some "[gerrit]\nhost=CHANGED\nproject=q".data] =
      (some [(hostKey, "h".data), (projectKey, "p".data)],
       some [(hostKey, "h".data), (projectKey, "p".data)]) :=
  ⟨by decide,
   c4_cache_stable [some "[gerrit]\nhost=h\nproject=p".data]
     [(hostKey, "h".data), (projectKey, "p".data)]
     (some [(hostKey, "h".data), (projectKey, "p".data)])
     (by decide)
     [some "[gerrit]\nhost=CHANGED\nproject=q".data]⟩

/-- C5: `parseGerritFile` yields nothing exactly when the content lacks
the literal `[gerrit]` marker or when, after processing all lines, the
required `host` or `project` property is missing (absent or empty, both
falsy); the warning is logged exactly in the latter case.  The function
is total, so no exception is possible. -/
theorem c5_parse_failure (content : JSStr) :
    ((parseGerritFile content).1 = none ↔
      (jsIncludes content gerritHeader = false ∨
        truthy (jsObjGet (parseAssignments content) hostKey) = false ∨
        truthy (jsObjGet (parseAssignments content) projectKey) = false)) ∧
    ((parseGerritFile content).2 = true ↔
      (jsIncludes content gerritHeader = true ∧
        (truthy (jsObjGet (parseAssignments content) hostKey) = false ∨
         truthy (jsObjGet (parseAssignments content) projectKey) = false))) := by
  unfold parseGerritFile
  by_cases hinc : jsIncludes content gerritHeader
  · by_cases hh : truthy (jsObjGet (parseAssignments content) hostKey)
    · by_cases hp : truthy (jsObjGet (parseAssignments content) projectKey)
      · simp [hinc, hh, hp]
      · simp [hinc, hh, hp]
    · simp [hinc, hh]
  · simp [hinc]

/-- C6: `getGitReviewFile` walks the read results root by root in the
given order, treats a failed read as absence, short-circuits on the
first successful parse, and yields nothing when all roots are
exhausted — i.e. it equals `findSome?` of the per-root parse over the
root list. -/
theorem c6_search_order (roots : List (Option JSStr)) :
    getGitReviewFile roots =
      roots.findSome? fun r => r.bind fun c => (parseGerritFile c).1 := by
  induction roots with
  | nil => rfl
  | cons r rest ih =>
    cases r with
    | none =>
      simp only [getGitReviewFile, List.findSome?_cons, Option.bind]
      exact ih
    | some c =>
      by_cases hc : c.isEmpty
      · have hnil : c = [] := by
          cases c with
          | nil => rfl
          | cons x xs => simp [List.isEmpty] at hc
        subst hnil
        simp only [getGitReviewFile, List.findSome?_cons]
        rw [ih]
        rfl
      · simp only [getGitReviewFile, hc, if_false, List.findSome?_cons]
        cases hp : (parseGerritFile c).1 with
        | none => simpa [hp] using ih
        | some parsed => simp [hp]

theorem jsSplit_ne_nil (sep : Char) (l : JSStr) : jsSplit sep l ≠ [] := by
  induction l with
  | nil => simp [jsSplit]
  | cons c rest ih =>
    simp only [jsSplit]
    by_cases hc : c = sep
    · simp [hc]
    · rw [if_neg hc]
      cases h : jsSplit sep rest with
      | nil => exact absurd h ih
      | cons hd tl => simp

theorem jsSplit_headD (sep : Char) (l : JSStr) :
    (jsSplit sep l).headD [] = l.takeWhile (fun c => c != sep) := by
  induction l with
  | nil => rfl
  | cons c rest ih =>
    simp only [jsSplit, List.takeWhile_cons]
    by_cases hc : c = sep
    · subst hc
      simp
    · rw [if_neg hc]
      have hb : (c != sep) = true := by simp [hc]
      rw [hb]
      cases h : jsSplit sep rest with
      | nil => exact absurd h (jsSplit_ne_nil sep rest)
      | cons hd tl =>
        rw [h] at ih
        simp only [List.headD] at ih ⊢
        simp [ih]

theorem jsSplit_append (sep : Char) (a rest : JSStr) (h : sep ∉ a) :
    jsSplit sep (a ++ sep :: rest) = a :: jsSplit sep rest := by
  induction a with
  | nil => simp [jsSplit]
  | cons c as ih =>
    have hc : ¬(c = sep) := fun hcs => h (hcs ▸ List.mem_cons_self c as)
    have h2 : sep ∉ as := fun hm => h (List.mem_cons_of_mem c hm)
    simp only [List.cons_append, jsSplit, if_neg hc, List.append_eq]
    rw [ih h2]

/-- C1 counterexample: for the line `host=a=b` the code stores the
value `a` (the segment between the first and second `=`), not the
claimed full remainder `a=b`; and for the line `" host =x"` the key is
stored untrimmed, so `parseLine` differs from the claim's split rule
(`parseLineClaim`). -/
theorem c1_counterexample :
    jsObjGet (parseAssignments "[gerrit]\nhost=a=b\nproject=p".data) hostKey =
      some "a".data ∧
    some "a".data ≠ some "a=b".data ∧
    parseLine " host =x".data = some (" host ".data, "x".data) ∧
    parseLine " host =x".data ≠ parseLineClaim " host =x".data :=
  ⟨by decide, by decide, by decide, by decide⟩

/-- C1 (amended): for a line containing `=`, the key is the untrimmed
text before the first `=`, and the value is the text strictly between
the first and the second `=` (the whole remainder when there is only
one `=`), trimmed; the pair is stored under the untrimmed key. -/
theorem c1_amended_split (a rest : JSStr) (h : '=' ∉ a) :
    parseLine (a ++ '=' :: rest) =
      some (a, jsTrim (rest.takeWhile (fun c => c != '='))) := by
  unfold parseLine
  have hcont : (a ++ '=' :: rest).contains '=' = true := by
    simp [List.contains, List.elem_iff]
  rw [if_pos hcont]
  cases hsp : jsSplit '=' rest with
  | nil => exact absurd hsp (jsSplit_ne_nil '=' rest)
  | cons hd tl =>
    have hhd : hd = rest.takeWhile (fun c => c != '=') := by
      have hh := jsSplit_headD '=' rest
      rw [hsp] at hh
      simpa using hh
    rw [jsSplit_append '=' a rest h, hsp]
    simp [hhd]

/-- Witness for the amended C1 at the line `host=x=y`: key `host`
(untrimmed), value `x` (between the two `=`), trimmed. -/
theorem c1_amended_split_witness :
    ('=' ∉ "host".data) ∧
    parseLine ("host".data ++ '=' :: "x=y".data) =
      some ("host".data, jsTrim ("x=y".data.takeWhile (fun c => c != '='))) :=
  ⟨by decide, c1_amended_split "host".data "x=y".data (by decide)⟩

theorem isEmpty_false_of_ne_nil {α : Type} {l : List α} (h : l ≠ []) :
    l.isEmpty = false := by
  cases l with
  | nil => exact absurd rfl h
  | cons a as => rfl

theorem findP_cons_pos {α : Type} (p : α → Bool) (a : α) (l : List α)
    (h : p a = true) : List.find? p (a :: l) = some a :=
  List.find?_cons_of_pos l h

theorem findP_cons_neg {α : Type} (p : α → Bool) (a : α) (l : List α)
    (h : p a = false) : List.find? p (a :: l) = List.find? p l :=
  List.find?_cons_of_neg l (by simp [h])

theorem find?_replace (m : List (String × GThread)) (k : String) (v : GThread) :
    ((m.map fun p => if p.1 == k then (k, v) else p).find? fun p => p.1 == k) =
      ((m.find? fun p => p.1 == k).map fun _ => (k, v)) := by
  induction m with
  | nil => rfl
  | cons p rest ih =>
    rw [List.map_cons]
    by_cases h : (p.1 == k) = true
    · rw [if_pos h]
      rw [findP_cons_pos (fun q => q.1 == k) (k, v) _ (by simp)]
      rw [findP_cons_pos (fun q => q.1 == k) p _ h]
      rfl
    · have h' : (p.1 == k) = false := by simpa using h
      rw [if_neg h]
      rw [findP_cons_neg (fun q => q.1 == k) p _ h',
        findP_cons_neg (fun q => q.1 == k) p _ h']
      exact ih

theorem find?_replace_ne (m : List (String × GThread)) (k k' : String)
    (v : GThread) (hne : k' ≠ k) :
    ((m.map fun p => if p.1 == k then (k, v) else p).find? fun p => p.1 == k') =
      (m.find? fun p => p.1 == k') := by
  have hkk : (k == k') = false := beq_eq_false_iff_ne.mpr (Ne.symm hne)
  induction m with
  | nil => rfl
  | cons p rest ih =>
    rw [List.map_cons]
    by_cases h : (p.1 == k) = true
    · have hp1 : p.1 = k := beq_iff_eq.mp h
      have hpk : (p.1 == k') = false := by rw [hp1]; exact hkk
      rw [if_pos h]
      rw [findP_cons_neg (fun q => q.1 == k') (k, v) _ hkk]
      rw [findP_cons_neg (fun q => q.1 == k') p _ hpk]
      exact ih
    · rw [if_neg h]
      by_cases h2 : (p.1 == k') = true
      · rw [findP_cons_pos (fun q => q.1 == k') p _ h2,
          findP_cons_pos (fun q => q.1 == k') p _ h2]
      · have h2' : (p.1 == k') = false := by simpa using h2
        rw [findP_cons_neg (fun q => q.1 == k') p _ h2',
          findP_cons_neg (fun q => q.1 == k') p _ h2']
        exact ih

theorem mapGet_mapSet_self (m : List (String × GThread)) (k : String)
    (v : GThread) : mapGet (mapSet m k v) k = some v := by
  unfold mapGet mapSet
  by_cases hf : ((m.find? fun p => p.1 == k)).isSome = true
  · rw [if_pos hf, find?_replace]
    obtain ⟨p, hp⟩ := Option.isSome_iff_exists.mp hf
    rw [hp]
    rfl
  · rw [if_neg hf, List.find?_append]
    have hn : (m.find? fun p => p.1 == k) = none :=
      Option.not_isSome_iff_eq_none.mp hf
    rw [hn]
    rw [findP_cons_pos (fun q => q.1 == k) (k, v) _ (by simp)]
    rfl

theorem mapGet_mapSet_ne (m : List (String × GThread)) (k k' : String)
    (v : GThread) (hne : k' ≠ k) :
    mapGet (mapSet m k v) k' = mapGet m k' := by
  unfold mapGet mapSet
  by_cases hf : ((m.find? fun p => p.1 == k)).isSome = true
  · rw [if_pos hf, find?_replace_ne m k k' v hne]
  · rw [if_neg hf, List.find?_append]
    have hkk : (k == k') = false := beq_eq_false_iff_ne.mpr (Ne.symm hne)
    rw [findP_cons_neg (fun q => q.1 == k') (k, v) _ hkk]
    cases hm : (m.find? fun p => p.1 == k') with
    | none => rfl
    | some p => rfl

theorem mapGet_mapDelete_self (m : List (String × GThread)) (k : String) :
    mapGet (mapDelete m k) k = none := by
  unfold mapGet mapDelete
  induction m with
  | nil => rfl
  | cons p rest ih =>
    rw [List.filter_cons]
    by_cases h : (p.1 == k) = true
    · have hb : (p.1 != k) = false := by
        simp [bne, h]
      rw [hb, if_neg (by simp)]
      exact ih
    · have h' : (p.1 == k) = false := by simpa using h
      have hb : (p.1 != k) = true := by
        simp [bne, h']
      rw [hb, if_pos rfl, findP_cons_neg (fun q => q.1 == k) p _ h']
      exact ih

theorem mapGet_mapDelete_ne (m : List (String × GThread)) (k k' : String)
    (hne : k' ≠ k) :
    mapGet (mapDelete m k) k' = mapGet m k' := by
  have hkk : (k == k') = false := beq_eq_false_iff_ne.mpr (Ne.symm hne)
  induction m with
  | nil => rfl
  | cons p rest ih =>
    unfold mapGet mapDelete at ih ⊢
    rw [List.filter_cons]
    by_cases h : (p.1 == k) = true
    · have hb : (p.1 != k) = false := by
        simp [bne, h]
      have hpk : (p.1 == k') = false := by
        rw [beq_iff_eq.mp h]
        exact hkk
      rw [hb, if_neg (by simp), findP_cons_neg (fun q => q.1 == k') p _ hpk]
      exact ih
    · have h' : (p.1 == k) = false := by simpa using h
      have hb : (p.1 != k) = true := by
        simp [bne, h']
      rw [hb, if_pos rfl]
      by_cases h2 : (p.1 == k') = true
      · rw [findP_cons_pos (fun q => q.1 == k') p _ h2,
          findP_cons_pos (fun q => q.1 == k') p _ h2]
      · have h2' : (p.1 == k') = false := by simpa using h2
        rw [findP_cons_neg (fun q => q.1 == k') p _ h2',
          findP_cons_neg (fun q => q.1 == k') p _ h2']
        exact ih

theorem update_true_collapsibleState (env : Env) (g : GThread) :
    (update env g true).thread.collapsibleState =
      (if !overrideExpand env g && resolved g.thread then
        CollapsibleState.collapsed
      else
        CollapsibleState.expanded) := rfl

theorem newThreadRecord_threadID (env : Env) (st : ThreadsState)
    (t : VSThread) :
    (newThreadRecord env st t).1.threadID = toString st.lastThreadId := rfl

theorem newThreadRecord_lastThreadId (env : Env) (st : ThreadsState)
    (t : VSThread) :
    (newThreadRecord env st t).2.1.lastThreadId = st.lastThreadId + 1 := rfl

theorem newThreadRecord_threadMap (env : Env) (st : ThreadsState)
    (t : VSThread) :
    (newThreadRecord env st t).2.1.threadMap =
      mapSet st.threadMap (toString st.lastThreadId)
        ((newThreadRecord env st t).1) := rfl

theorem disposeThread_threadMap (st : ThreadsState) (g : GThread) :
    (disposeThread st g).1.threadMap = mapDelete st.threadMap g.threadID :=
  rfl

theorem fromThread_create (env : Env) (st : ThreadsState) (t : VSThread)
    (h : getThreadID t = none) (hm : env.managersForUri t.uri ≠ []) :
    fromThread env st t =
      (some ((newThreadRecord env st t).1),
       (newThreadRecord env st t).2.1,
       (newThreadRecord env st t).2.2) := by
  have hm2 : (env.managersForUri t.uri).isEmpty = false :=
    isEmpty_false_of_ne_nil hm
  unfold fromThread
  rw [h, hm2]
  rfl

/-- C7: on first materialization (`update` with `isInitial`), a thread
with file meta whose last comment has a range is force-expanded when the
line-thread counts aggregated over all managers for the URI exceed 1,
regardless of resolution; otherwise it is collapsed exactly when
resolved. -/
theorem c7_same_line_expand (env : Env) (g : GThread) (fp : String)
    (c : Comment) (ln : Nat)
    (h1 : g.filePath = some fp) (h2 : lastComment g.thread = some c)
    (h3 : c.line = some ln) :
    (update env g true).thread.collapsibleState =
      (if 1 < ((env.managersForUri g.thread.uri).map fun m => m ln).sum then
        CollapsibleState.expanded
      else if resolved g.thread = true then
        CollapsibleState.collapsed
      else
        CollapsibleState.expanded) := by
  rw [update_true_collapsibleState]
  unfold overrideExpand
  simp only [h1, h2, h3]
  by_cases hs : 1 < ((env.managersForUri g.thread.uri).map fun m => m ln).sum
  · simp [hs]
  · by_cases hr : resolved g.thread = true <;> simp [hs, hr]

/-- Witness for C7: with a second thread on line 3 (counts sum to 2),
an initial update leaves the thread expanded even though it is
resolved. -/
theorem c7_same_line_expand_witness :
    sampleRecord.filePath = some "file.ts" ∧
    lastComment sampleRecord.thread = some sampleComment ∧
    sampleComment.line = some 3 ∧
    resolved sampleRecord.thread = true ∧
    (update envTwo sampleRecord true).thread.collapsibleState =
      CollapsibleState.expanded :=
  ⟨rfl, rfl, rfl, rfl,
   (c7_same_line_expand envTwo sampleRecord "file.ts" sampleComment 3
     rfl rfl rfl).trans (by decide)⟩

/-- C3: `from` on a handle with no prior identifier, when no manager
claims the URI, returns nothing — but only after the constructor has
advanced the counter, written `` `${id}|` `` into the handle and
inserted the new record into the table; nothing is rolled back. -/
theorem c3_no_rollback (env : Env) (st : ThreadsState) (t : VSThread)
    (h1 : getThreadID t = none) (h2 : env.managersForUri t.uri = []) :
    fromThread env st t =
      (none,
       (newThreadRecord env st t).2.1,
       (newThreadRecord env st t).2.2) ∧
    (newThreadRecord env st t).2.1.lastThreadId = st.lastThreadId + 1 ∧
    (newThreadRecord env st t).2.2.contextValue =
      some (toString st.lastThreadId ++ "|") ∧
    mapGet (newThreadRecord env st t).2.1.threadMap
        (toString st.lastThreadId) =
      some { threadID := toString st.lastThreadId
             thread := { t with
               contextValue := some (toString st.lastThreadId ++ "|") }
             filePath := env.fileMeta t.uri } := by
  refine ⟨?_, rfl, rfl, mapGet_mapSet_self _ _ _⟩
  have hm2 : (env.managersForUri t.uri).isEmpty = true := by
    rw [h2]
    rfl
  unfold fromThread
  rw [h1, hm2]
  rfl

/-- Witness for C3 with a fresh handle and an environment without
managers. -/
theorem c3_no_rollback_witness :
    getThreadID freshHandle = none ∧
    envNone.managersForUri freshHandle.uri = [] ∧
    (fromThread envNone initialState freshHandle).1 = none ∧
    (fromThread envNone initialState freshHandle).2.1.lastThreadId = 1 ∧
    (fromThread envNone initialState freshHandle).2.2.contextValue =
      some "0|" ∧
    (mapGet (fromThread envNone initialState freshHandle).2.1.threadMap
      "0").isSome = true := by
  have h := c3_no_rollback envNone initialState freshHandle rfl rfl
  rw [h.1]
  exact ⟨rfl, rfl, rfl, h.2.1, h.2.2.1, by decide⟩

/-- C2 counterexample: create the thread stored under id `"0"`, then
set its comment list to empty.  The underlying handle is disposed
(disposal count 1), yet the global table still maps `"0"` to the
record — a stale entry for a thread whose handle has been disposed,
contradicting the claimed invariant. -/
theorem c2_counterexample :
    ((mapGet (setComments envOne
          (fromThread envOne initialState freshHandle).2.1
          "0" [] false).threadMap "0").map
        fun r => r.thread.disposeCount) = some 1 := by
  decide

/-- C2 (amended): setting a thread's comment list to empty disposes the
underlying handle exactly once (its disposal count rises by one), but
the table entry is not removed — the record stays resolvable under its
identifier — and entries under other identifiers are untouched. -/
theorem c2_amended_stale (env : Env) (st : ThreadsState) (tid : String)
    (g : GThread) (b : Bool) (h : mapGet st.threadMap tid = some g) :
    ((mapGet (setComments env st tid [] b).threadMap tid).map
        fun r => r.thread.disposeCount) =
      some (g.thread.disposeCount + 1) ∧
    ∀ tid' : String, tid' ≠ tid →
      mapGet (setComments env st tid [] b).threadMap tid' =
        mapGet st.threadMap tid' := by
  have hemp :
      (update env
        { g with thread := { g.thread with comments := ([] : List Comment) } }
        b).thread.comments.isEmpty = true := by
    rw [update_thread_comments]
    rfl
  simp only [setComments, h, hemp, if_true]
  constructor
  · rw [mapGet_mapSet_self]
    simp [update_thread_disposeCount]
  · intro tid' hne
    rw [mapGet_mapSet_ne _ _ _ _ hne, mapGet_mapSet_ne _ _ _ _ hne]

/-- Witness for the amended C2: the stored record's disposal count goes
from 0 to 1 while the entry remains in the table. -/
theorem c2_amended_stale_witness :
    mapGet ({ lastThreadId := 1, threadMap := [("0", sampleRecord)] }
        : ThreadsState).threadMap "0" = some sampleRecord ∧
    ((mapGet (setComments envOne
          { lastThreadId := 1, threadMap := [("0", sampleRecord)] }
          "0" [] false).threadMap "0").map
        fun r => r.thread.disposeCount) =
      some (sampleRecord.thread.disposeCount + 1) :=
  ⟨by decide,
   (c2_amended_stale envOne
     { lastThreadId := 1, threadMap := [("0", sampleRecord)] }
     "0" sampleRecord false (by decide)).1⟩

/-- C8: starting from the initial static state (counter 0), creating
two thread records in sequence assigns the identifiers `"0"` and `"1"`
(strictly increasing, unique, one counter increment each); disposing
the first record removes only its own table entry, leaving the second
resolvable under its identifier. -/
theorem c8_sequence (env : Env) (t1 t2 : VSThread)
    (h1 : getThreadID t1 = none) (h2 : getThreadID t2 = none)
    (m1 : env.managersForUri t1.uri ≠ [])
    (m2 : env.managersForUri t2.uri ≠ []) :
    initialState.lastThreadId = 0 ∧
    fromThread env initialState t1 =
      (some ((newThreadRecord env initialState t1).1),
       (newThreadRecord env initialState t1).2.1,
       (newThreadRecord env initialState t1).2.2) ∧
    fromThread env ((newThreadRecord env initialState t1).2.1) t2 =
      (some ((newThreadRecord env
          ((newThreadRecord env initialState t1).2.1) t2).1),
       (newThreadRecord env
          ((newThreadRecord env initialState t1).2.1) t2).2.1,
       (newThreadRecord env
          ((newThreadRecord env initialState t1).2.1) t2).2.2) ∧
    (newThreadRecord env initialState t1).1.threadID = "0" ∧
    (newThreadRecord env
        ((newThreadRecord env initialState t1).2.1) t2).1.threadID = "1" ∧
    (newThreadRecord env initialState t1).1.threadID ≠
      (newThreadRecord env
        ((newThreadRecord env initialState t1).2.1) t2).1.threadID ∧
    (newThreadRecord env initialState t1).2.1.lastThreadId = 1 ∧
    (newThreadRecord env
        ((newThreadRecord env initialState t1).2.1) t2).2.1.lastThreadId
      = 2 ∧
    mapGet (disposeThread
        ((newThreadRecord env
          ((newThreadRecord env initialState t1).2.1) t2).2.1)
        ((newThreadRecord env initialState t1).1)).1.threadMap "0" =
      none ∧
    mapGet (disposeThread
        ((newThreadRecord env
          ((newThreadRecord env initialState t1).2.1) t2).2.1)
        ((newThreadRecord env initialState t1).1)).1.threadMap "1" =
      some ((newThreadRecord env
        ((newThreadRecord env initialState t1).2.1) t2).1) := by
  have hid1 : (newThreadRecord env initialState t1).2.1.lastThreadId = 1 := by
    rw [newThreadRecord_lastThreadId]
    rfl
  have ht0 : (newThreadRecord env initialState t1).1.threadID = "0" := by
    rw [newThreadRecord_threadID]
    rfl
  have ht1 : (newThreadRecord env
      ((newThreadRecord env initialState t1).2.1) t2).1.threadID = "1" := by
    rw [newThreadRecord_threadID, hid1]
    rfl
  have hid2 : (newThreadRecord env
      ((newThreadRecord env initialState t1).2.1) t2).2.1.lastThreadId
      = 2 := by
    rw [newThreadRecord_lastThreadId, hid1]
  refine ⟨rfl,
    fromThread_create env initialState t1 h1 m1,
    fromThread_create env ((newThreadRecord env initialState t1).2.1) t2
      h2 m2,
    ht0, ht1, ?_, hid1, hid2, ?_, ?_⟩
  · rw [ht0, ht1]
    decide
  · rw [disposeThread_threadMap, ht0]
    exact mapGet_mapDelete_self _ _
  · rw [disposeThread_threadMap, ht0, newThreadRecord_threadMap, hid1]
    rw [show toString (1 : Nat) = "1" from rfl]
    rw [mapGet_mapDelete_ne _ _ _ (show ("1" : String) ≠ "0" by decide)]
    exact mapGet_mapSet_self _ _ _

/-- Witness for C8 on concrete handles and a concrete environment. -/
theorem c8_sequence_witness :
    getThreadID freshHandle = none ∧
    envOne.managersForUri freshHandle.uri ≠ [] ∧
    (fromThread envOne initialState freshHandle).1 =
      some ((newThreadRecord envOne initialState freshHandle).1) ∧
    (fromThread envOne
        ((newThreadRecord envOne initialState freshHandle).2.1)
        freshHandle).1 =
      some ((newThreadRecord envOne
        ((newThreadRecord envOne initialState freshHandle).2.1)
        freshHandle).1) ∧
    (newThreadRecord envOne initialState freshHandle).1.threadID = "0" ∧
    (newThreadRecord envOne
        ((newThreadRecord envOne initialState freshHandle).2.1)
        freshHandle).1.threadID = "1" ∧
    mapGet (disposeThread
        ((newThreadRecord envOne
          ((newThreadRecord envOne initialState freshHandle).2.1)
          freshHandle).2.1)
        ((newThreadRecord envOne initialState freshHandle).1)).1.threadMap
        "0" = none ∧
    mapGet (disposeThread
        ((newThreadRecord envOne
          ((newThreadRecord envOne initialState freshHandle).2.1)
          freshHandle).2.1)
        ((newThreadRecord envOne initialState freshHandle).1)).1.threadMap
        "1" =
      some ((newThreadRecord envOne
        ((newThreadRecord envOne initialState freshHandle).2.1)
        freshHandle).1) := by
  have h := c8_sequence envOne freshHandle freshHandle rfl rfl
    (by simp [envOne]) (by simp [envOne])
  refine ⟨rfl, by simp [envOne], ?_, ?_, h.2.2.2.1, h.2.2.2.2.1,
    h.2.2.2.2.2.2.2.2.1, h.2.2.2.2.2.2.2.2.2⟩
  · rw [h.2.1]
  · rw [h.2.2.1]

end VSCodeGerrit
